import Mathlib

/-!
Verification of the geometry core of `streamlit_web_app`: a shallow embedding of the coordinate/geometry subsystem of the repository:

* `src/data_loader.py` — offset projection (`_meters_to_deg`),
  offset application (`_apply_offset_if_possible`), the shape builder
  (`_build_shapes` and its helpers `_rotate_east_north`, `_SHAPE_UL_RE`,
  `_SHAPE_LR_RE`), and the whole-batch builder (`build_geo_from_rows`).
* `src/map_view.py` — the JavaScript marker grouper embedded in the page
  template (`metersToLatLngDelta`, `groupPlacesByLatLng` and the marker
  colour selection in `initMap`).

Python/JavaScript floats are modelled by `ℚ`.  The only transcendental
operations the code uses are `cos(radians x)` and `sin(radians x)`; they are
abstracted into a `Trig` parameter carrying `cosDeg`/`sinDeg : ℚ → ℚ`
(the composition of `radians` and `cos`/`sin`).  Every property proved below
holds for an arbitrary such parameter, which is why the abstraction is sound
for these claims.  Python `re`'s `\d`/`\s` classes are modelled on the ASCII
range (the repository's row names and shape specifications are ASCII digits
and whitespace plus Japanese keywords, which both readings treat alike).
-/

/-- A latitude/longitude pair, as the Python dicts `{"lat": .., "lng": ..}`. -/
structure Pt where
  lat : ℚ
  lng : ℚ
deriving DecidableEq

/-- Abstraction of the two float trigonometric functions used by the code:
`cosDeg x` models `math.cos(math.radians(x))` and `sinDeg x` models
`math.sin(math.radians(x))`. -/
structure Trig where
  cosDeg : ℚ → ℚ
  sinDeg : ℚ → ℚ

/-- A normalized CSV row, with the fields produced by `load_rows_from_csv`
(`src/data_loader.py`, lines 87-105). -/
structure Row where
  raw_name : String
  name : String
  genre : String
  price : String
  color : String
  desc : String
  website : String
  address : String
  lat : Option ℚ
  lng : Option ℚ
  north_offset_m : ℚ
  east_offset_m : ℚ
deriving DecidableEq

/-- `_meters_to_deg` (`src/data_loader.py`, lines 52-58): local flat-earth
conversion of a metre offset into a latitude/longitude delta. -/
def metersToDeg (T : Trig) (lat_deg north_m east_m : ℚ) : ℚ × ℚ :=
  let m_per_deg_lat : ℚ := 111320
  let m_per_deg_lng : ℚ := 111320 * T.cosDeg lat_deg
  let dlat := north_m / m_per_deg_lat
  let dlng := if m_per_deg_lng ≠ 0 then east_m / m_per_deg_lng else 0
  (dlat, dlng)

/-- `_apply_offset_if_possible` (`src/data_loader.py`, lines 143-148). -/
def applyOffsetIfPossible (T : Trig) (lat lng : Option ℚ) (north_m east_m : ℚ) :
    Option Pt :=
  match lat, lng with
  | some la, some ln =>
    let d := metersToDeg T la north_m east_m
    some ⟨la + d.1, ln + d.2⟩
  | _, _ => none

/-- Resolution of one row to a final point, as each call site passes
`r["lat"], r["lng"], r["north_offset_m"], r["east_offset_m"]` to
`_apply_offset_if_possible`. -/
def resolveRow (T : Trig) (r : Row) : Option Pt :=
  applyOffsetIfPossible T r.lat r.lng r.north_offset_m r.east_offset_m

/-- `_rotate_east_north` (`src/data_loader.py`, lines 154-158): the standard
2D rotation matrix applied to an (east, north) metre vector. -/
def rotateEastNorth (T : Trig) (east_m north_m deg : ℚ) : ℚ × ℚ :=
  (east_m * T.cosDeg deg - north_m * T.sinDeg deg,
   east_m * T.sinDeg deg + north_m * T.cosDeg deg)

/-- Row-name pattern helper: `some key` when the name is exactly
`tag` followed by one or more digits (the anchored regexes
`^左上(\d+)$` / `^右下(\d+)$`, `src/data_loader.py`, lines 151-152). -/
def digitKeyAfter (tag : String) (s : String) : Option String :=
  let cs := s.data
  if tag.data.isPrefixOf cs then
    let rest := cs.drop tag.data.length
    if rest ≠ [] ∧ rest.all Char.isDigit then some (String.mk rest) else none
  else none

/-- `_SHAPE_UL_RE.match`: key of an upper-left row name. -/
def ulKeyOf (s : String) : Option String := digitKeyAfter "左上" s

/-- `_SHAPE_LR_RE.match`: key of a lower-right row name. -/
def lrKeyOf (s : String) : Option String := digitKeyAfter "右下" s

/-- `ul_map` lookup (`src/data_loader.py`, lines 165-170): the dict maps each
key to the *last* row inserted for it. -/
def ulLookup (rows : List Row) (k : String) : Option Row :=
  (rows.filter (fun r => decide (ulKeyOf r.raw_name = some k))).getLast?

/-- `lr_map` lookup, same construction as `ulLookup`. -/
def lrLookup (rows : List Row) (k : String) : Option Row :=
  (rows.filter (fun r => decide (lrKeyOf r.raw_name = some k))).getLast?

/-- Digit run to a natural number (value of a `\d+` group; 48 is `'0'`). -/
def digitsVal (cs : List Char) : Nat :=
  cs.foldl (fun acc c => acc * 10 + (c.toNat - 48)) 0

/-- Parse `[\-]?\d+(?:\.\d+)?` anchored at the head of `cs`, returning the
float value `float(m.group(1))` would produce (exactly, over `ℚ`). -/
def parseNumAt (cs : List Char) : Option ℚ :=
  let neg := match cs with | '-' :: _ => true | _ => false
  let cs1 := if neg then cs.drop 1 else cs
  let ds := cs1.takeWhile Char.isDigit
  if ds.isEmpty then none
  else
    let rest := cs1.dropWhile Char.isDigit
    let fs := match rest with
      | '.' :: r2 => r2.takeWhile Char.isDigit
      | _ => []
    let mag : ℚ := (digitsVal ds : ℚ) + (digitsVal fs : ℚ) / ((10 : ℚ) ^ fs.length)
    some (if neg then -mag else mag)

/-- Drop the literal `tag` if it is a prefix of `cs`. -/
def afterTag (tag : String) (cs : List Char) : Option (List Char) :=
  if tag.data.isPrefixOf cs then some (cs.drop tag.data.length) else none

/-- One attempt of the rotation regex
`(?:回転|rotate)?\s*([\-]?\d+(?:\.\d+)?)\s*(?:度|°|deg)?`
(`src/data_loader.py`, line 204) at a fixed start position: the alternation
tries `回転`, then `rotate`, then the empty prefix, each followed by optional
whitespace and the number group (the trailing unit is optional and does not
constrain the match). -/
def tryRotAt (cs : List Char) : Option ℚ :=
  match (match afterTag "回転" cs with
         | some rest => parseNumAt (rest.dropWhile Char.isWhitespace)
         | none => none) with
  | some q => some q
  | none =>
    match (match afterTag "rotate" cs with
           | some rest => parseNumAt (rest.dropWhile Char.isWhitespace)
           | none => none) with
    | some q => some q
    | none => parseNumAt (cs.dropWhile Char.isWhitespace)

/-- `re.search` for the rotation pattern: try each start position from the
left and take the first successful match's number group. -/
def rotSearch : List Char → Option ℚ
  | [] => none
  | c :: rest =>
    match tryRotAt (c :: rest) with
    | some q => some q
    | none => rotSearch rest

/-- The parsed rotation angle of a shape-specification string
(`rot_deg`, `src/data_loader.py`, lines 203-207; defaults to `0.0` when the
pattern does not match). -/
def rotOf (s : String) : ℚ := (rotSearch s.data).getD 0

/-- Python's substring containment `needle in hay`. -/
def containsSub (needle hay : List Char) : Bool :=
  (List.range (hay.length + 1)).any (fun i => needle.isPrefixOf (hay.drop i))

/-- `str.lower()` (modelled on the ASCII range; the Japanese keywords are
unaffected by either implementation). -/
def lowerStr (s : String) : String := String.mk (s.data.map Char.toLower)

/-- Python `str.strip()` / JS `String.prototype.trim()`: drop leading and
trailing whitespace. -/
def stripStr (s : String) : String :=
  String.mk (((s.data.dropWhile Char.isWhitespace).reverse.dropWhile
    Char.isWhitespace).reverse)

/-- `int(key) if key.isdigit() else 0` (`src/data_loader.py`, line 212). -/
def keyIdx (key : String) : Nat :=
  if key.data ≠ [] ∧ key.data.all Char.isDigit then digitsVal key.data else 0

/-- `is_ellipse` (`src/data_loader.py`, line 210). -/
def isEllipseSpec (shape_spec : String) : Bool :=
  containsSub "楕円".data shape_spec.data ||
  containsSub "ellipse".data (lowerStr shape_spec).data

/-- `is_rect` (`src/data_loader.py`, line 209).  Note: the value is computed
by the source but never used by the dispatch, which tests only `is_ellipse`. -/
def isRectSpec (shape_spec : String) : Bool :=
  containsSub "四角".data shape_spec.data ||
  containsSub "rect".data (lowerStr shape_spec).data ||
  containsSub "rectangle".data (lowerStr shape_spec).data

/-- `html.escape` with `quote=True`, as used for the info popup text. -/
def escapeChar (c : Char) : List Char :=
  if c = '&' then "&amp;".data
  else if c = '<' then "&lt;".data
  else if c = '>' then "&gt;".data
  else if c = '"' then "&quot;".data
  else if c = '\'' then "&#x27;".data
  else [c]

/-- `html.escape` applied to a whole string. -/
def escapeHtml (s : String) : String :=
  String.mk (s.data.foldr (fun c acc => escapeChar c ++ acc) [])

/-- `info_html` (`src/data_loader.py`, lines 217-222); `label_text or
f"領域 {key}"` falls back to the default exactly when `label_text` is empty. -/
def infoHtml (key label_text sub_text : String) : String :=
  "<div style=\"font-size:14px;line-height:1.6\">" ++
  "<div style=\"font-size:16px;font-weight:bold;color:#333;\">" ++
  escapeHtml (if label_text = "" then "領域 " ++ key else label_text) ++
  "</div>" ++
  "<div style=\"font-size:13px;color:#666;margin-top:4px;\">" ++
  escapeHtml sub_text ++
  "</div>" ++
  "</div>"

/-- The fixed five-colour palette (stroke, fill, label)
(`src/data_loader.py`, lines 173-179). -/
def palette : List (String × String × String) :=
  [("#3B82F6", "#3B82F6", "#1E40AF"),
   ("#F59E0B", "#F59E0B", "#9A3412"),
   ("#10B981", "#10B981", "#065F46"),
   ("#EF4444", "#EF4444", "#7F1D1D"),
   ("#8B5CF6", "#8B5CF6", "#4C1D95")]

/-- `pal = palette[int(key) % len(palette)]` with `int(key) if key.isdigit()
else 0` (`src/data_loader.py`, lines 212-213). -/
def palAt (key : String) : String × String × String :=
  let idx := keyIdx key
  (palette.get? (idx % palette.length)).getD ("", "", "")

/-- `north, south, west, east` of a resolved pair
(`src/data_loader.py`, lines 195-198). -/
def pairBounds (p q : Pt) : ℚ × ℚ × ℚ × ℚ :=
  (max p.lat q.lat, min p.lat q.lat, min p.lng q.lng, max p.lng q.lng)

/-- `center_lat = (north + south) / 2.0` (lines 225 and 249). -/
def bboxCenterLat (p q : Pt) : ℚ :=
  ((pairBounds p q).1 + (pairBounds p q).2.1) / 2

/-- `center_lng = (east + west) / 2.0` (lines 226 and 250). -/
def bboxCenterLng (p q : Pt) : ℚ :=
  ((pairBounds p q).2.2.2 + (pairBounds p q).2.2.1) / 2

/-- `radius_n_m` / `half_h_m`: the same expression is computed in both the
ellipse and the rectangle/polygon branches
(`max(1.0, abs(north - south) * 0.5 * m_per_deg_lat)`, lines 229 and 253). -/
def halfNorthM (p q : Pt) : ℚ :=
  max 1 (|(pairBounds p q).1 - (pairBounds p q).2.1| * (1/2) * 111320)

/-- `radius_e_m` / `half_w_m`
(`max(1.0, abs(east - west) * 0.5 * m_per_deg_lng)` with
`m_per_deg_lng = 111320 * cos(radians(center_lat))`, lines 228-230, 252-254). -/
def halfEastM (T : Trig) (p q : Pt) : ℚ :=
  max 1 (|(pairBounds p q).2.2.2 - (pairBounds p q).2.2.1| * (1/2) *
    (111320 * T.cosDeg (bboxCenterLat p q)))

/-- The three shape dictionaries `_build_shapes` can append
(`src/data_loader.py`, lines 232-247, 257-269, 288-299), with exactly their
keys as fields (in source order). -/
inductive Shape where
  | ellipse (center : Pt) (radiusNorthM radiusEastM rotationDeg fillOpacity : ℚ)
      (strokeColor fillColor label labelColor : String) (labelFontSize : ℚ)
      (labelAnchor : String) (labelInsetM : ℚ) (info : String)
  | rect (north south east west fillOpacity : ℚ)
      (strokeColor fillColor label labelColor : String) (labelFontSize : ℚ)
      (labelAnchor : String) (labelInsetM : ℚ) (info : String)
  | poly (paths : List Pt) (fillOpacity : ℚ)
      (strokeColor fillColor label labelColor : String) (labelFontSize : ℚ)
      (labelPos : Pt) (info : String)
deriving DecidableEq

/-- The shape built for one complete, resolved pair: the body of the loop of
`_build_shapes` from line 195 on, given the resolved upper-left point `ulp`
and lower-right point `lrp`. -/
def buildPairShape (T : Trig) (key : String) (ul lr : Row) (ulp lrp : Pt) :
    Shape :=
  let b := pairBounds ulp lrp
  let shape_spec := stripStr ul.website
  let rot_deg := rotOf shape_spec
  let pal := palAt key
  let label_text := stripStr ul.desc
  let sub_text := stripStr lr.desc
  let info := infoHtml key label_text sub_text
  if isEllipseSpec shape_spec then
    Shape.ellipse ⟨bboxCenterLat ulp lrp, bboxCenterLng ulp lrp⟩
      (halfNorthM ulp lrp) (halfEastM T ulp lrp) rot_deg (9/50)
      pal.1 pal.2.1 label_text pal.2.2 16 "bottom-right" 60 info
  else if |rot_deg| < 1/1000000 then
    Shape.rect b.1 b.2.1 b.2.2.2 b.2.2.1 (9/50)
      pal.1 pal.2.1 label_text pal.2.2 16 "bottom-right" 30 info
  else
    let clat := bboxCenterLat ulp lrp
    let clng := bboxCenterLng ulp lrp
    let hw := halfEastM T ulp lrp
    let hh := halfNorthM ulp lrp
    let corners_local : List (ℚ × ℚ) := [(hw, hh), (-hw, hh), (-hw, -hh), (hw, -hh)]
    let paths := corners_local.map (fun c =>
      let rr := rotateEastNorth T c.1 c.2 rot_deg
      let d := metersToDeg T clat rr.2 rr.1
      Pt.mk (clat + d.1) (clng + d.2))
    let lb := rotateEastNorth T (hw - 40) (-hh + 40) rot_deg
    let dl := metersToDeg T clat lb.2 lb.1
    Shape.poly paths (9/50) pal.1 pal.2.1 label_text pal.2.2 16
      (Pt.mk (clat + dl.1) (clng + dl.2)) info

/-- Warning for a key with only one member
(`src/data_loader.py`, line 184). -/
def missingMsg (key : String) : String :=
  "組 " ++ key ++ ": 左上／右下 のいずれかがありません。"

/-- Warning for a pair whose coordinates cannot be resolved
(`src/data_loader.py`, line 192). -/
def unresolvedMsg (key : String) : String :=
  "組 " ++ key ++ ": 座標が未設定のためスキップ。"

/-- Processing of one complete pair: resolve both members, build the shape or
emit the skip warning (`src/data_loader.py`, lines 187-193 and onwards). -/
def processPairRows (T : Trig) (key : String) (ul lr : Row) :
    List Shape × List String :=
  match resolveRow T ul, resolveRow T lr with
  | some p, some q => ([buildPairShape T key ul lr p q], [])
  | _, _ => ([], [unresolvedMsg key])

/-- Processing of one key of `sorted(set(ul_map) | set(lr_map))`
(`src/data_loader.py`, lines 181-193). -/
def processKey (T : Trig) (rows : List Row) (key : String) :
    List Shape × List String :=
  match ulLookup rows key, lrLookup rows key with
  | some ul, some lr => processPairRows T key ul lr
  | _, _ => ([], [missingMsg key])

/-- Lexicographic (code-point) strict order on strings, as Python's `<` used
by `sorted`. -/
def charListLt : List Char → List Char → Bool
  | [], [] => false
  | [], _ :: _ => true
  | _ :: _, [] => false
  | a :: as, b :: bs => if a < b then true else if b < a then false else charListLt as bs

/-- Insert into an ascending list (helper for `sorted`). -/
def insertSorted (x : String) : List String → List String
  | [] => [x]
  | y :: ys => if charListLt y.data x.data then y :: insertSorted x ys else x :: y :: ys

/-- Python's `sorted` on a duplicate-free list of strings. -/
def sortStrings (l : List String) : List String := l.foldr insertSorted []

/-- Keep the first occurrence of each element (Python `set` /JS `Set`/`Map`
insertion order; for the *sorted* key set only membership matters). -/
def dedupFirstAux {α : Type} [DecidableEq α] : List α → List α → List α
  | [], acc => acc.reverse
  | x :: xs, acc =>
    if x ∈ acc then dedupFirstAux xs acc else dedupFirstAux xs (x :: acc)

/-- Deduplication keeping first occurrences. -/
def dedupFirst {α : Type} [DecidableEq α] (l : List α) : List α :=
  dedupFirstAux l []

/-- `sorted(set(ul_map.keys()) | set(lr_map.keys()))`
(`src/data_loader.py`, line 181). -/
def shapeKeys (rows : List Row) : List String :=
  sortStrings (dedupFirst
    (rows.filterMap (fun r => ulKeyOf r.raw_name) ++
     rows.filterMap (fun r => lrKeyOf r.raw_name)))

/-- `_build_shapes` (`src/data_loader.py`, lines 160-301): the pairing loop,
accumulating shapes and warnings in key order. -/
def buildShapes (T : Trig) (rows : List Row) : List Shape × List String :=
  (shapeKeys rows).foldr
    (fun k acc =>
      let res := processKey T rows k
      (res.1 ++ acc.1, res.2 ++ acc.2))
    ([], [])

/-- A rendered place entry (`src/data_loader.py`, lines 350-359). -/
structure Place where
  name : String
  website : String
  desc : String
  color : String
  genre : String
  price : String
  lat : ℚ
  lng : ℚ
deriving DecidableEq

/-- A row is consumed by the shape builder when its raw name matches the
upper-left or lower-right pattern (`src/data_loader.py`, lines 332-334). -/
def shapeRowB (r : Row) : Bool :=
  (ulKeyOf r.raw_name).isSome || (lrKeyOf r.raw_name).isSome

/-- The place dict appended for a kept row (`src/data_loader.py`,
lines 350-359); `r.get("name") or "(名称未設定)"` falls back exactly on the
empty string. -/
def mkPlace (r : Row) (p : Pt) : Place :=
  ⟨(if r.name = "" then "(名称未設定)" else r.name),
   r.website, r.desc, r.color, r.genre, r.price, p.lat, p.lng⟩

/-- The coordinate validity test of line 346:
`-90 <= lat <= 90 and -180 <= lng <= 180`. -/
def inRangeB (p : Pt) : Bool :=
  decide (-90 ≤ p.lat ∧ p.lat ≤ 90 ∧ -180 ≤ p.lng ∧ p.lng ≤ 180)

/-- The place loop of `build_geo_from_rows` (`src/data_loader.py`,
lines 331-359), returning `(places, skipped_missing, shape_rows_count)`. -/
def placeLoop (T : Trig) : List Row → List Place × Nat × Nat
  | [] => ([], 0, 0)
  | r :: rs =>
    let rest := placeLoop T rs
    if shapeRowB r then (rest.1, rest.2.1, rest.2.2 + 1)
    else
      match resolveRow T r with
      | none => (rest.1, rest.2.1 + 1, rest.2.2)
      | some p =>
        if inRangeB p then (mkPlace r p :: rest.1, rest.2.1, rest.2.2)
        else (rest.1, rest.2.1 + 1, rest.2.2)

/-- Conversion of a non-shape row into its place entry, when it resolves and
is in range (the body of the loop for one row). -/
def placeOfRow (T : Trig) (r : Row) : Option Place :=
  (resolveRow T r).bind (fun p => if inRangeB p then some (mkPlace r p) else none)

/-- The contribution of an arbitrary row to `places`: `none` for rows the
shape builder consumes, otherwise `placeOfRow`. -/
def rowPlace (T : Trig) (r : Row) : Option Place :=
  if shapeRowB r then none else placeOfRow T r

/-- Python's banker's rounding (`round` of floats ties to even), over `ℚ`. -/
def roundHalfEven (q : ℚ) : ℤ :=
  let f := ⌊q⌋
  let r := q - (f : ℚ)
  if r < 1/2 then f
  else if (1 : ℚ)/2 < r then f + 1
  else if f % 2 = 0 then f else f + 1

/-- `round(x, 6)` (`src/data_loader.py`, line 362). -/
def pyRound6 (q : ℚ) : ℚ := (roundHalfEven (q * 1000000) : ℚ) / 1000000

/-- The duplicate-coordinate keys of the `Counter` on line 363, in first
occurrence order. -/
def dupKeys (ps : List Place) : List (ℚ × ℚ) :=
  dedupFirst (ps.map (fun p => (pyRound6 p.lat, pyRound6 p.lng)))

/-- `dup_notes` (`src/data_loader.py`, lines 363-365), modelled as the
(rounded key, count) pairs with count > 1; the decimal string formatting of
the message text is outside the scope of this embedding. -/
def dupNotes (ps : List Place) : List ((ℚ × ℚ) × Nat) :=
  (dupKeys ps).filterMap (fun k =>
    let cnt := (ps.filter (fun p => decide ((pyRound6 p.lat, pyRound6 p.lng) = k))).length
    if 1 < cnt then some (k, cnt) else none)

/-- The result dict of `build_geo_from_rows` (`src/data_loader.py`,
lines 367-381), with `place_stats` inlined as the last five fields. -/
structure Geo where
  map_center : Pt
  pin_center : Option Pt
  places : List Place
  shapes : List Shape
  shape_warnings : List String
  place_warnings : List String
  rows_total : Nat
  shape_rows : Nat
  places_kept : Nat
  skipped_missing : Nat
  dup_notes : List ((ℚ × ℚ) × Nat)
deriving DecidableEq

/-- `build_geo_from_rows` (`src/data_loader.py`, lines 303-381).  The two
`raise RuntimeError(...)` statements are modelled as `Except.error` with the
raised message. -/
def buildGeoFromRows (T : Trig) (rows : List Row) : Except String Geo :=
  if rows.length < 2 then Except.error "行数不足"
  else
    match (rows.get? 0).bind (fun r0 => resolveRow T r0) with
    | none => Except.error "地図中心の緯度経度が未設定です。CSVを確認してください。"
    | some map_center =>
      let other_rows := rows.drop 2
      let pin_center := (rows.get? 1).bind (fun r1 => resolveRow T r1)
      let sw := buildShapes T other_rows
      let pl := placeLoop T other_rows
      Except.ok ⟨map_center, pin_center, pl.1, sw.1, sw.2, [],
                 other_rows.length, pl.2.2, pl.1.length, pl.2.1, dupNotes pl.1⟩

/-- `Except.ok` discriminator for the build result. -/
def isOkB : Except String Geo → Bool
  | Except.ok _ => true
  | Except.error _ => false

/-- A place object of the JavaScript payload (`src/map_view.py`): the fields
the marker grouper and colour selection read. -/
structure JPlace where
  name : String
  desc : String
  website : String
  color : String
  lat : ℚ
  lng : ℚ
deriving DecidableEq

/-- `x.toFixed(6)` as a comparison key: ECMAScript formats `-x` with a leading
sign after rounding the magnitude half-away-up, so two values produce the same
string exactly when the sign flag and the rounded scaled magnitude agree. -/
def toFixed6Key (q : ℚ) : Bool × ℤ :=
  if q < 0 then (true, round (-q * 1000000)) else (false, round (q * 1000000))

/-- The grouping key `lat.toFixed(6) + "," + lng.toFixed(6)`
(`src/map_view.py`, `groupPlacesByLatLng`, line 89). -/
def jsKey (p : JPlace) : (Bool × ℤ) × (Bool × ℤ) :=
  (toFixed6Key p.lat, toFixed6Key p.lng)

/-- `groupPlacesByLatLng` (`src/map_view.py`, lines 85-94): a JS `Map` keyed
by `jsKey`, preserving first-occurrence key order and input order inside each
group. -/
def groupPlacesByLatLng (places : List JPlace) : List (List JPlace) :=
  (dedupFirst (places.map jsKey)).map
    (fun k => places.filter (fun p => decide (jsKey p = k)))

/-- `Array.from(new Set(g.items.map(it => (it.color || "").trim()).filter(Boolean)))`
(`src/map_view.py`, line 150): the distinct non-empty trimmed colours of a
group, in first-occurrence order. -/
def groupColors (g : List JPlace) : List String :=
  dedupFirst ((g.map (fun p => stripStr p.color)).filter (fun c => decide (c ≠ "")))

/-- The marker colour choice
`colors.length === 1 ? colors[0] : (g.items.length > 1 ? "#F59E0B" : "#EF4444")`
(`src/map_view.py`, line 151). -/
def markerColor (g : List JPlace) : String :=
  match groupColors g with
  | [c] => c
  | _ => if 1 < g.length then "#F59E0B" else "#EF4444"

/-- The rotated rectangle corner list as §4.2 step 7 of the specification
words it: the unrotated local-frame corners in order NE, NW, SW, SE, each
rotated by the angle via the 2D rotation matrix and projected back to lat/lng
from the bbox midpoint. -/
def specRotatedPoly (T : Trig) (rot clat clng hw hh : ℚ) : List Pt :=
  ([(hw, hh), (-hw, hh), (-hw, -hh), (hw, -hh)] : List (ℚ × ℚ)).map (fun c =>
    let rr := rotateEastNorth T c.1 c.2 rot
    let d := metersToDeg T clat rr.2 rr.1
    Pt.mk (clat + d.1) (clng + d.2))

/-- The rotated polygon's label anchor (`src/data_loader.py`, lines 283-286):
the inset bottom-right corner in the rotated local frame, projected back. -/
def polyLabelPos (T : Trig) (clat clng hw hh rot : ℚ) : Pt :=
  let lb := rotateEastNorth T (hw - 40) (-hh + 40) rot
  let dl := metersToDeg T clat lb.2 lb.1
  Pt.mk (clat + dl.1) (clng + dl.2)

/-- `dst` with the coordinate data (base point and metre offsets) of `src`:
the "user swapped the two corner rows' coordinates" transformation of the
specification's open question (§9). -/
def withCoordsOf (src dst : Row) : Row :=
  ⟨dst.raw_name, dst.name, dst.genre, dst.price, dst.color, dst.desc,
   dst.website, dst.address, src.lat, src.lng,
   src.north_offset_m, src.east_offset_m⟩

/-- A concrete trig model with cosine one (used only to instantiate witnesses;
every theorem below holds for arbitrary `Trig`). -/
def T0 : Trig := ⟨fun _ => 1, fun _ => 0⟩

/-- A concrete trig model with cosine zero (pole case witness). -/
def Tz : Trig := ⟨fun _ => 0, fun _ => 0⟩

/-- A row with a name, coordinates and no offsets/extras. -/
def simpleRow (nm : String) (la ln : ℚ) : Row :=
  ⟨nm, nm, "", "", "", "", "", "", some la, some ln, 0, 0⟩

/-- A row with a name, a shape-specification string (the URL column) and
coordinates. -/
def specRow (nm spec : String) (la ln : ℚ) : Row :=
  ⟨nm, nm, "", "", "", "", spec, "", some la, some ln, 0, 0⟩

/-- Upper-left test row for the default rectangle scenario. -/
def c1_ul : Row := simpleRow "左上1" 35 139

/-- Lower-right test row for the default rectangle scenario. -/
def c1_lr : Row := simpleRow "右下1" 34.999 139.001

/-- Upper-left test row with a 45-degree rotation specification. -/
def c3_ul : Row := specRow "左上1" "45度" 35 139

/-- Lower-right test row for the rotation scenario. -/
def c3_lr : Row := simpleRow "右下1" 34.999 139.001

/-- Upper-left test row with an ellipse keyword and a degenerate bbox. -/
def c4_ul : Row := specRow "左上2" "楕円" 35 139

/-- Lower-right test row coinciding with the upper-left one (degenerate
near-zero-area bounding box). -/
def c4_lr : Row := simpleRow "右下2" 35 139

/-- An unpaired upper-left row (key 7). -/
def c7_bad : Row := simpleRow "左上7" 35 139

/-- Batch with a place whose latitude lands out of range (91). -/
def c8_rows : List Row :=
  [simpleRow "中心" 35 139, simpleRow "現在" 35 139,
   simpleRow "店A" 10 10, simpleRow "店B" 91 0]

/-- Batch whose only non-reference row is a shape-pattern row with valid
coordinates. -/
def c10_rows : List Row :=
  [simpleRow "中心" 35 139, simpleRow "現在" 35 139, simpleRow "左上1" 35 139]

/-- The geo result `build_geo_from_rows` produces for `c10_rows`. -/
def c10_geo : Geo :=
  ⟨⟨35, 139⟩, some ⟨35, 139⟩, [], [], [missingMsg "1"], [], 1, 1, 0, 0, []⟩

/-- The geo result `build_geo_from_rows` produces for `c8_rows`: the
out-of-range row is dropped and counted, and every warning list is empty. -/
def c8_geo : Geo :=
  ⟨⟨35, 139⟩, some ⟨35, 139⟩, [mkPlace (simpleRow "店A" 10 10) ⟨10, 10⟩],
   [], [], [], 2, 0, 1, 1, []⟩

/-- JS payload place A: red, at (35, 139). -/
def jpA : JPlace := ⟨"A", "", "", "#ff0000", 35, 139⟩

/-- JS payload place B: red, exactly (35, 139). -/
def jpB : JPlace := ⟨"B", "", "", "#ff0000", 35, 139⟩

/-- JS payload place C: green, exactly (35, 139). -/
def jpC : JPlace := ⟨"C", "", "", "#00ff00", 35, 139⟩

theorem metersToDeg_zero (T : Trig) (la : ℚ) : metersToDeg T la 0 0 = (0, 0) := by
  simp [metersToDeg]

theorem resolveRow_zero (T : Trig) (r : Row) (la ln : ℚ)
    (h1 : r.lat = some la) (h2 : r.lng = some ln)
    (h3 : r.north_offset_m = 0) (h4 : r.east_offset_m = 0) :
    resolveRow T r = some ⟨la, ln⟩ := by
  simp [resolveRow, applyOffsetIfPossible, h1, h2, h3, h4, metersToDeg_zero]

theorem mem_dedupFirstAux {α : Type} [DecidableEq α] (x : α) :
    ∀ (l acc : List α), x ∈ dedupFirstAux l acc ↔ x ∈ l ∨ x ∈ acc := by
  intro l
  induction l with
  | nil => intro acc; simp [dedupFirstAux]
  | cons y ys ih =>
    intro acc
    by_cases h : y ∈ acc
    · rw [dedupFirstAux, if_pos h, ih]
      constructor
      · rintro (hx | hx)
        · exact Or.inl (List.mem_cons_of_mem y hx)
        · exact Or.inr hx
      · rintro (hx | hx)
        · rcases List.mem_cons.mp hx with rfl | hx
          · exact Or.inr h
          · exact Or.inl hx
        · exact Or.inr hx
    · rw [dedupFirstAux, if_neg h, ih]
      simp only [List.mem_cons]
      tauto

theorem mem_dedupFirst {α : Type} [DecidableEq α] (x : α) (l : List α) :
    x ∈ dedupFirst l ↔ x ∈ l := by
  simp [dedupFirst, mem_dedupFirstAux]

theorem dedupFirstAux_all_eq {α : Type} [DecidableEq α] (c : α) :
    ∀ (l acc : List α), (∀ x ∈ l, x = c) → c ∈ acc →
      dedupFirstAux l acc = acc.reverse := by
  intro l
  induction l with
  | nil => intro acc _ _; rfl
  | cons y ys ih =>
    intro acc hall hc
    have hy : y = c := hall y (List.mem_cons_self y ys)
    subst hy
    rw [dedupFirstAux, if_pos hc]
    exact ih acc (fun x hx => hall x (List.mem_cons_of_mem y hx)) hc

theorem dedupFirst_all_eq {α : Type} [DecidableEq α] (c : α) (l : List α)
    (hne : l ≠ []) (h : ∀ x ∈ l, x = c) : dedupFirst l = [c] := by
  cases l with
  | nil => exact absurd rfl hne
  | cons y ys =>
    have hy : y = c := h y (List.mem_cons_self y ys)
    subst hy
    rw [dedupFirst, dedupFirstAux, if_neg (List.not_mem_nil y)]
    rw [dedupFirstAux_all_eq y ys [y]
      (fun x hx => h x (List.mem_cons_of_mem y hx)) (List.mem_singleton_self y)]
    rfl

theorem mem_insertSorted (x a : String) :
    ∀ l, x ∈ insertSorted a l ↔ x = a ∨ x ∈ l := by
  intro l
  induction l with
  | nil => simp [insertSorted]
  | cons y ys ih =>
    rw [insertSorted]
    by_cases h : charListLt y.data a.data
    · rw [if_pos h]
      simp only [List.mem_cons, ih]
      tauto
    · rw [if_neg h]
      simp only [List.mem_cons]

theorem mem_sortStrings (x : String) : ∀ l, x ∈ sortStrings l ↔ x ∈ l := by
  intro l
  induction l with
  | nil => simp [sortStrings]
  | cons y ys ih =>
    show x ∈ insertSorted y (sortStrings ys) ↔ _
    rw [mem_insertSorted, ih]
    simp [List.mem_cons]

theorem one_lt_length_of_two_mem {α : Type} {a b : α} {l : List α}
    (ha : a ∈ l) (hb : b ∈ l) (hne : a ≠ b) : 1 < l.length := by
  cases l with
  | nil => cases ha
  | cons x xs =>
    cases xs with
    | nil =>
      rw [List.mem_singleton] at ha hb
      exact absurd (ha.trans hb.symm) hne
    | cons y ys => simp only [List.length_cons]; omega

theorem buildPairShape_of_ellipse (T : Trig) (k : String) (ul lr : Row) (p q : Pt)
    (h : isEllipseSpec (stripStr ul.website) = true) :
    buildPairShape T k ul lr p q =
      Shape.ellipse ⟨bboxCenterLat p q, bboxCenterLng p q⟩
        (halfNorthM p q) (halfEastM T p q) (rotOf (stripStr ul.website)) (9/50)
        (palAt k).1 (palAt k).2.1 (stripStr ul.desc) (palAt k).2.2 16
        "bottom-right" 60 (infoHtml k (stripStr ul.desc) (stripStr lr.desc)) := by
  simp [buildPairShape, h]

theorem buildPairShape_of_rect (T : Trig) (k : String) (ul lr : Row) (p q : Pt)
    (h1 : isEllipseSpec (stripStr ul.website) = false)
    (h2 : |rotOf (stripStr ul.website)| < 1/1000000) :
    buildPairShape T k ul lr p q =
      Shape.rect (max p.lat q.lat) (min p.lat q.lat) (max p.lng q.lng)
        (min p.lng q.lng) (9/50)
        (palAt k).1 (palAt k).2.1 (stripStr ul.desc) (palAt k).2.2 16
        "bottom-right" 30 (infoHtml k (stripStr ul.desc) (stripStr lr.desc)) := by
  have h2i : |rotOf (stripStr ul.website)| < (1000000 : ℚ)⁻¹ := by rwa [one_div] at h2
  simp [buildPairShape, h1, h2i, pairBounds]

theorem buildPairShape_of_poly (T : Trig) (k : String) (ul lr : Row) (p q : Pt)
    (h1 : isEllipseSpec (stripStr ul.website) = false)
    (h2 : ¬(|rotOf (stripStr ul.website)| < 1/1000000)) :
    buildPairShape T k ul lr p q =
      Shape.poly
        (specRotatedPoly T (rotOf (stripStr ul.website)) (bboxCenterLat p q)
          (bboxCenterLng p q) (halfEastM T p q) (halfNorthM p q)) (9/50)
        (palAt k).1 (palAt k).2.1 (stripStr ul.desc) (palAt k).2.2 16
        (polyLabelPos T (bboxCenterLat p q) (bboxCenterLng p q)
          (halfEastM T p q) (halfNorthM p q) (rotOf (stripStr ul.website)))
        (infoHtml k (stripStr ul.desc) (stripStr lr.desc)) := by
  have h2i : ¬(|rotOf (stripStr ul.website)| < (1000000 : ℚ)⁻¹) := by rwa [one_div] at h2
  simp [buildPairShape, h1, h2i, specRotatedPoly, polyLabelPos]

theorem pairBounds_comm (p q : Pt) : pairBounds q p = pairBounds p q := by
  simp [pairBounds, max_comm, min_comm]

theorem bboxCenterLat_comm (p q : Pt) : bboxCenterLat q p = bboxCenterLat p q := by
  rw [bboxCenterLat, bboxCenterLat, pairBounds_comm]

theorem bboxCenterLng_comm (p q : Pt) : bboxCenterLng q p = bboxCenterLng p q := by
  rw [bboxCenterLng, bboxCenterLng, pairBounds_comm]

theorem halfNorthM_comm (p q : Pt) : halfNorthM q p = halfNorthM p q := by
  rw [halfNorthM, halfNorthM, pairBounds_comm]

theorem halfEastM_comm (T : Trig) (p q : Pt) : halfEastM T q p = halfEastM T p q := by
  rw [halfEastM, halfEastM, pairBounds_comm, bboxCenterLat_comm]

theorem buildPairShape_swap_points (T : Trig) (k : String) (ul lr : Row) (p q : Pt) :
    buildPairShape T k ul lr q p = buildPairShape T k ul lr p q := by
  rw [buildPairShape, buildPairShape, pairBounds_comm, bboxCenterLat_comm,
    bboxCenterLng_comm, halfNorthM_comm, halfEastM_comm]

theorem placeLoop_eq (T : Trig) : ∀ rows : List Row,
    placeLoop T rows =
      (rows.filterMap (rowPlace T),
       (rows.filter (fun r => !shapeRowB r && (placeOfRow T r).isNone)).length,
       (rows.filter (fun r => shapeRowB r)).length) := by
  intro rows
  induction rows with
  | nil => rfl
  | cons r rs ih =>
    by_cases hs : shapeRowB r
    · simp [placeLoop, hs, ih, rowPlace, List.filterMap_cons, List.filter_cons]
    · rcases hres : resolveRow T r with _ | p
      · simp [placeLoop, hs, hres, ih, rowPlace, placeOfRow,
          List.filterMap_cons, List.filter_cons]
      · by_cases hr : inRangeB p
        · simp [placeLoop, hs, hres, hr, ih, rowPlace, placeOfRow,
            List.filterMap_cons, List.filter_cons]
        · simp [placeLoop, hs, hres, hr, ih, rowPlace, placeOfRow,
            List.filterMap_cons, List.filter_cons]

theorem placeLoop_places (T : Trig) (l : List Row) :
    (placeLoop T l).1 = l.filterMap (rowPlace T) := by
  rw [placeLoop_eq]

theorem placeLoop_skipped (T : Trig) (l : List Row) :
    (placeLoop T l).2.1 =
      (l.filter (fun r => !shapeRowB r && (placeOfRow T r).isNone)).length := by
  rw [placeLoop_eq]

theorem placeLoop_shapeRows (T : Trig) (l : List Row) :
    (placeLoop T l).2.2 = (l.filter (fun r => shapeRowB r)).length := by
  rw [placeLoop_eq]

theorem filterMap_rowPlace (T : Trig) : ∀ l : List Row,
    l.filterMap (rowPlace T) =
      (l.filter (fun r => !shapeRowB r)).filterMap (placeOfRow T) := by
  intro l
  induction l with
  | nil => rfl
  | cons r rs ih =>
    by_cases hs : shapeRowB r
    · simp [List.filterMap_cons, List.filter_cons, hs, rowPlace, ih]
    · simp [List.filterMap_cons, List.filter_cons, hs, rowPlace, ih]

theorem buildGeo_ok_fields (T : Trig) (rows : List Row) (g : Geo)
    (h : buildGeoFromRows T rows = Except.ok g) :
    g.places = (placeLoop T (rows.drop 2)).1 ∧
    g.place_warnings = [] ∧
    g.skipped_missing = (placeLoop T (rows.drop 2)).2.1 ∧
    g.shapes = (buildShapes T (rows.drop 2)).1 ∧
    g.shape_warnings = (buildShapes T (rows.drop 2)).2 := by
  by_cases h2 : rows.length < 2
  · rw [buildGeoFromRows, if_pos h2] at h
    exact absurd h (by simp)
  · rw [buildGeoFromRows, if_neg h2] at h
    rcases hm : (rows.get? 0).bind (fun r0 => resolveRow T r0) with _ | mc
    · rw [hm] at h
      exact absurd h (by simp)
    · rw [hm] at h
      have hg : g = ⟨mc, (rows.get? 1).bind (fun r1 => resolveRow T r1),
          (placeLoop T (rows.drop 2)).1, (buildShapes T (rows.drop 2)).1,
          (buildShapes T (rows.drop 2)).2, [], (rows.drop 2).length,
          (placeLoop T (rows.drop 2)).2.2, (placeLoop T (rows.drop 2)).1.length,
          (placeLoop T (rows.drop 2)).2.1,
          dupNotes (placeLoop T (rows.drop 2)).1⟩ := by
        injection h with h'
        exact h'.symm
      subst hg
      exact ⟨rfl, rfl, rfl, rfl, rfl⟩

theorem ulLookup_concat_hit (rows : List Row) (bad : Row) (K : String)
    (h : ulKeyOf bad.raw_name = some K) :
    ulLookup (rows ++ [bad]) K = some bad := by
  rw [ulLookup, List.filter_append]
  have : List.filter (fun r => decide (ulKeyOf r.raw_name = some K)) [bad] = [bad] := by
    simp [List.filter_cons, h]
  rw [this]
  exact List.getLast?_concat _

theorem lrLookup_concat_hit (rows : List Row) (bad : Row) (K : String)
    (h : lrKeyOf bad.raw_name = some K) :
    lrLookup (rows ++ [bad]) K = some bad := by
  rw [lrLookup, List.filter_append]
  have : List.filter (fun r => decide (lrKeyOf r.raw_name = some K)) [bad] = [bad] := by
    simp [List.filter_cons, h]
  rw [this]
  exact List.getLast?_concat _

theorem ulLookup_none (rows : List Row) (K : String)
    (h : ∀ r ∈ rows, ulKeyOf r.raw_name ≠ some K) :
    ulLookup rows K = none := by
  rw [ulLookup]
  have : List.filter (fun r => decide (ulKeyOf r.raw_name = some K)) rows = [] := by
    rw [List.filter_eq_nil_iff]
    intro r hr
    simp [h r hr]
  rw [this]
  rfl

theorem lrLookup_none (rows : List Row) (K : String)
    (h : ∀ r ∈ rows, lrKeyOf r.raw_name ≠ some K) :
    lrLookup rows K = none := by
  rw [lrLookup]
  have : List.filter (fun r => decide (lrKeyOf r.raw_name = some K)) rows = [] := by
    rw [List.filter_eq_nil_iff]
    intro r hr
    simp [h r hr]
  rw [this]
  rfl

theorem ulLookup_concat_miss (rows : List Row) (bad : Row) (K2 : String)
    (h : ulKeyOf bad.raw_name ≠ some K2) :
    ulLookup (rows ++ [bad]) K2 = ulLookup rows K2 := by
  rw [ulLookup, List.filter_append]
  have : List.filter (fun r => decide (ulKeyOf r.raw_name = some K2)) [bad] = [] := by
    simp [List.filter_cons, h]
  rw [this, List.append_nil]
  rfl

theorem lrLookup_concat_miss (rows : List Row) (bad : Row) (K2 : String)
    (h : lrKeyOf bad.raw_name ≠ some K2) :
    lrLookup (rows ++ [bad]) K2 = lrLookup rows K2 := by
  rw [lrLookup, List.filter_append]
  have : List.filter (fun r => decide (lrKeyOf r.raw_name = some K2)) [bad] = [] := by
    simp [List.filter_cons, h]
  rw [this, List.append_nil]
  rfl

theorem isPrefixOf_append_self (n suf : List Char) :
    n.isPrefixOf (n ++ suf) = true := by
  induction n with
  | nil => simp [List.isPrefixOf]
  | cons c cs ih => simp [List.isPrefixOf, ih]

theorem containsSub_of_parts (n pre suf : List Char) :
    containsSub n (pre ++ n ++ suf) = true := by
  rw [containsSub, List.any_eq_true]
  refine ⟨pre.length, List.mem_range.mpr ?_, ?_⟩
  · simp [List.length_append]
    omega
  · rw [List.append_assoc, List.drop_left]
    exact isPrefixOf_append_self n suf

theorem mem_shapeKeys_of_ul (rows : List Row) (r : Row) (K : String)
    (hr : r ∈ rows) (h : ulKeyOf r.raw_name = some K) : K ∈ shapeKeys rows := by
  rw [shapeKeys, mem_sortStrings, mem_dedupFirst, List.mem_append]
  exact Or.inl (List.mem_filterMap.mpr ⟨r, hr, h⟩)

theorem mem_shapeKeys_of_lr (rows : List Row) (r : Row) (K : String)
    (hr : r ∈ rows) (h : lrKeyOf r.raw_name = some K) : K ∈ shapeKeys rows := by
  rw [shapeKeys, mem_sortStrings, mem_dedupFirst, List.mem_append]
  exact Or.inr (List.mem_filterMap.mpr ⟨r, hr, h⟩)

theorem filterMap_ulKey_filter (l : List Row) :
    (l.filter (fun r => shapeRowB r)).filterMap (fun r => ulKeyOf r.raw_name) =
      l.filterMap (fun r => ulKeyOf r.raw_name) := by
  induction l with
  | nil => rfl
  | cons r rs ih =>
    by_cases hs : shapeRowB r
    · rcases hu : ulKeyOf r.raw_name with _ | k <;>
        simp [List.filter_cons, List.filterMap_cons, hs, hu, ih]
    · have hu : ulKeyOf r.raw_name = none := by
        rcases hu : ulKeyOf r.raw_name with _ | k
        · rfl
        · exact absurd (by simp [shapeRowB, hu]) hs
      simp [List.filter_cons, List.filterMap_cons, hs, hu, ih]

theorem filterMap_lrKey_filter (l : List Row) :
    (l.filter (fun r => shapeRowB r)).filterMap (fun r => lrKeyOf r.raw_name) =
      l.filterMap (fun r => lrKeyOf r.raw_name) := by
  induction l with
  | nil => rfl
  | cons r rs ih =>
    by_cases hs : shapeRowB r
    · rcases hu : lrKeyOf r.raw_name with _ | k <;>
        simp [List.filter_cons, List.filterMap_cons, hs, hu, ih]
    · have hu : lrKeyOf r.raw_name = none := by
        rcases hu : lrKeyOf r.raw_name with _ | k
        · rfl
        · exact absurd (by simp [shapeRowB, hu]) hs
      simp [List.filter_cons, List.filterMap_cons, hs, hu, ih]

theorem ulLookup_filter_shape (l : List Row) (k : String) :
    ulLookup (l.filter (fun r => shapeRowB r)) k = ulLookup l k := by
  rw [ulLookup, ulLookup, List.filter_filter]
  congr 1
  apply List.filter_congr
  intro r _
  rcases hu : ulKeyOf r.raw_name with _ | k2
  · simp [hu]
  · simp [hu, shapeRowB]

theorem lrLookup_filter_shape (l : List Row) (k : String) :
    lrLookup (l.filter (fun r => shapeRowB r)) k = lrLookup l k := by
  rw [lrLookup, lrLookup, List.filter_filter]
  congr 1
  apply List.filter_congr
  intro r _
  rcases hu : lrKeyOf r.raw_name with _ | k2
  · simp [hu]
  · simp [hu, shapeRowB]

theorem processKey_filter_shape (T : Trig) (l : List Row) (k : String) :
    processKey T (l.filter (fun r => shapeRowB r)) k = processKey T l k := by
  rw [processKey, processKey, ulLookup_filter_shape, lrLookup_filter_shape]

theorem buildShapes_filter_shape (T : Trig) (l : List Row) :
    buildShapes T l = buildShapes T (l.filter (fun r => shapeRowB r)) := by
  rw [buildShapes, buildShapes]
  have hkeys : shapeKeys (l.filter (fun r => shapeRowB r)) = shapeKeys l := by
    rw [shapeKeys, shapeKeys, filterMap_ulKey_filter, filterMap_lrKey_filter]
  rw [hkeys]
  have hfun :
      (fun (k : String) (acc : List Shape × List String) =>
        let res := processKey T l k
        (res.1 ++ acc.1, res.2 ++ acc.2)) =
      (fun (k : String) (acc : List Shape × List String) =>
        let res := processKey T (l.filter (fun r => shapeRowB r)) k
        (res.1 ++ acc.1, res.2 ++ acc.2)) := by
    funext k acc
    rw [processKey_filter_shape]
  rw [hfun]

/-- C6: the Offset Projector returns (0, 0) for zero offsets at every
latitude in [-90, 90] other than the poles; in general `dlat = north_m /
111320` and `dlng = east_m / (111320 * cos(radians lat_deg))`, or `0` when
that cosine term is exactly zero, and no error is raised for any input
(`metersToDeg` is total). -/
theorem offset_projector_contract (T : Trig) (lat n e : ℚ) :
    (-90 ≤ lat → lat ≤ 90 → lat ≠ 90 → lat ≠ -90 → metersToDeg T lat 0 0 = (0, 0)) ∧
    (metersToDeg T lat n e).1 = n / 111320 ∧
    (111320 * T.cosDeg lat ≠ 0 →
      (metersToDeg T lat n e).2 = e / (111320 * T.cosDeg lat)) ∧
    (111320 * T.cosDeg lat = 0 → (metersToDeg T lat n e).2 = 0) := by
  refine ⟨fun _ _ _ _ => metersToDeg_zero T lat, rfl, fun h => ?_, fun h => ?_⟩
  · simp only [metersToDeg, if_pos h]
  · simp [metersToDeg, h]

/-- Witness for C6: concrete evaluations of the projector contract at
latitude 35 (non-degenerate trig model) and at a zero cosine (pole model). -/
theorem offset_projector_contract_witness :
    metersToDeg T0 35 0 0 = (0, 0) ∧
    (metersToDeg T0 35 111320 0).1 = 111320 / 111320 ∧
    (metersToDeg T0 35 0 111320).2 = 111320 / (111320 * T0.cosDeg 35) ∧
    (metersToDeg Tz 35 0 111320).2 = 0 :=
  ⟨(offset_projector_contract T0 35 111320 0).1 (by norm_num) (by norm_num)
      (by norm_num) (by norm_num),
   (offset_projector_contract T0 35 111320 0).2.1,
   (offset_projector_contract T0 35 0 111320).2.2.1 (by norm_num [T0]),
   (offset_projector_contract Tz 35 0 111320).2.2.2 (by norm_num [Tz])⟩

/-- C1: for the pair resolving to upper-left (35.000, 139.000) and
lower-right (34.999, 139.001) with zero offsets and a shape specification
with no rotation number and no rectangle/ellipse keyword, `_build_shapes`
emits exactly one axis-aligned rectangle with north 35.000, south 34.999,
east 139.001, west 139.000 (palette entry 1, inset 30, opacity 0.18). -/
theorem rect_default_pair (T : Trig) :
    buildShapes T [c1_ul, c1_lr] =
      ([Shape.rect 35 34.999 139.001 139 (9/50) "#F59E0B" "#F59E0B" ""
          "#9A3412" 16 "bottom-right" 30 (infoHtml "1" "" "")], []) := by
  have hu : resolveRow T c1_ul = some ⟨35, 139⟩ :=
    resolveRow_zero T c1_ul 35 139 rfl rfl rfl rfl
  have hl : resolveRow T c1_lr = some ⟨34.999, 139.001⟩ :=
    resolveRow_zero T c1_lr 34.999 139.001 rfl rfl rfl rfl
  have hk : shapeKeys [c1_ul, c1_lr] = ["1"] := rfl
  have hul : ulLookup [c1_ul, c1_lr] "1" = some c1_ul := rfl
  have hlr : lrLookup [c1_ul, c1_lr] "1" = some c1_lr := rfl
  have hrot : rotOf (stripStr c1_ul.website) = 0 := rfl
  have hb := buildPairShape_of_rect T "1" c1_ul c1_lr ⟨35, 139⟩ ⟨34.999, 139.001⟩
    rfl (by rw [hrot]; norm_num)
  rw [buildShapes, hk]
  simp only [List.foldr_cons, List.foldr_nil, processKey, hul, hlr,
    processPairRows, hu, hl, List.append_nil]
  rw [hb]
  have hpal : palAt "1" = ("#F59E0B", "#F59E0B", "#9A3412") := rfl
  have hd1 : stripStr c1_ul.desc = "" := rfl
  have hd2 : stripStr c1_lr.desc = "" := rfl
  rw [hpal, hd1, hd2]
  norm_num

/-- C2: the derived bounds of every shape pair are
north = max latitude, south = min latitude, west = min longitude,
east = max longitude, the bounds are symmetric in the two corners, and
exchanging the coordinate data of the upper-left and lower-right rows yields
an identical processing result (identical bounding box and geometry). -/
theorem bbox_normalization_swap (T : Trig) (k : String) (ul lr : Row) :
    (∀ p q : Pt, pairBounds p q =
      (max p.lat q.lat, min p.lat q.lat, min p.lng q.lng, max p.lng q.lng)) ∧
    (∀ p q : Pt, pairBounds q p = pairBounds p q) ∧
    processPairRows T k ul lr =
      processPairRows T k (withCoordsOf lr ul) (withCoordsOf ul lr) := by
  refine ⟨fun p q => rfl, fun p q => pairBounds_comm p q, ?_⟩
  have h1 : resolveRow T (withCoordsOf lr ul) = resolveRow T lr := rfl
  have h2 : resolveRow T (withCoordsOf ul lr) = resolveRow T ul := rfl
  have hbp : ∀ a b : Pt,
      buildPairShape T k (withCoordsOf lr ul) (withCoordsOf ul lr) a b =
        buildPairShape T k ul lr b a :=
    fun a b => buildPairShape_swap_points T k ul lr b a
  rw [processPairRows, processPairRows, h1, h2]
  rcases resolveRow T ul with _ | p <;> rcases resolveRow T lr with _ | q <;> try rfl
  exact congrArg (fun s => ([s], ([] : List String))) (hbp q p).symm

/-- C3: for a complete resolved pair whose upper-left shape specification
parses to a rotation of 45 degrees and contains no ellipse keyword, the
builder emits a 4-point polygon of type `poly` (not a plain rectangle): the
unrotated local-frame corners in order NE, NW, SW, SE, each rotated by 45
degrees via the 2D rotation matrix and projected back to lat/lng from the
bbox midpoint. -/
theorem rotated_poly_45 (T : Trig) (k : String) (ul lr : Row) (p q : Pt)
    (h1 : resolveRow T ul = some p) (h2 : resolveRow T lr = some q)
    (hrot : rotSearch (stripStr ul.website).data = some 45)
    (hell : isEllipseSpec (stripStr ul.website) = false) :
    processPairRows T k ul lr =
      ([Shape.poly
          (specRotatedPoly T 45 (bboxCenterLat p q) (bboxCenterLng p q)
            (halfEastM T p q) (halfNorthM p q)) (9/50)
          (palAt k).1 (palAt k).2.1 (stripStr ul.desc) (palAt k).2.2 16
          (polyLabelPos T (bboxCenterLat p q) (bboxCenterLng p q)
            (halfEastM T p q) (halfNorthM p q) 45)
          (infoHtml k (stripStr ul.desc) (stripStr lr.desc))], []) := by
  have hro : rotOf (stripStr ul.website) = 45 := by
    rw [rotOf, hrot]
    rfl
  have hnr : ¬(|rotOf (stripStr ul.website)| < 1/1000000) := by
    rw [hro]
    norm_num
  have hb := buildPairShape_of_poly T k ul lr p q hell hnr
  rw [hro] at hb
  rw [processPairRows]
  simp only [h1, h2]
  rw [hb]

/-- Witness for C3: the shape specification "45度" with a resolvable concrete
pair produces the rotated 4-point polygon. -/
theorem rotated_poly_45_witness :
    rotSearch (stripStr c3_ul.website).data = some 45 ∧
    isEllipseSpec (stripStr c3_ul.website) = false ∧
    processPairRows T0 "1" c3_ul c3_lr =
      ([Shape.poly
          (specRotatedPoly T0 45 (bboxCenterLat ⟨35, 139⟩ ⟨34.999, 139.001⟩)
            (bboxCenterLng ⟨35, 139⟩ ⟨34.999, 139.001⟩)
            (halfEastM T0 ⟨35, 139⟩ ⟨34.999, 139.001⟩)
            (halfNorthM ⟨35, 139⟩ ⟨34.999, 139.001⟩)) (9/50)
          (palAt "1").1 (palAt "1").2.1 (stripStr c3_ul.desc) (palAt "1").2.2 16
          (polyLabelPos T0 (bboxCenterLat ⟨35, 139⟩ ⟨34.999, 139.001⟩)
            (bboxCenterLng ⟨35, 139⟩ ⟨34.999, 139.001⟩)
            (halfEastM T0 ⟨35, 139⟩ ⟨34.999, 139.001⟩)
            (halfNorthM ⟨35, 139⟩ ⟨34.999, 139.001⟩) 45)
          (infoHtml "1" (stripStr c3_ul.desc) (stripStr c3_lr.desc))], []) := by
  have hnum : rotSearch (stripStr c3_ul.website).data = some 45 := by
    have h0 : rotSearch (stripStr c3_ul.website).data =
        some (((45 : ℕ) : ℚ) + ((0 : ℕ) : ℚ) / ((10 : ℚ) ^ (0 : ℕ))) := rfl
    rw [h0]
    norm_num
  exact ⟨hnum, rfl,
    rotated_poly_45 T0 "1" c3_ul c3_lr ⟨35, 139⟩ ⟨34.999, 139.001⟩
      (resolveRow_zero T0 c3_ul 35 139 rfl rfl rfl rfl)
      (resolveRow_zero T0 c3_lr 34.999 139.001 rfl rfl rfl rfl)
      hnum rfl⟩

/-- C4: for every complete resolved pair whose shape specification contains
an ellipse keyword and parses to no rotation (0 degrees), the emitted shape
is an ellipse whose center is the bbox midpoint and whose radiusNorthM and
radiusEastM are each at least 1 (the half-extents clamped below at one
metre), even for a degenerate near-zero-area bounding box. -/
theorem ellipse_radii_min (T : Trig) (k : String) (ul lr : Row) (p q : Pt)
    (h1 : resolveRow T ul = some p) (h2 : resolveRow T lr = some q)
    (hell : isEllipseSpec (stripStr ul.website) = true)
    (hrot : rotOf (stripStr ul.website) = 0) :
    processPairRows T k ul lr =
      ([Shape.ellipse ⟨bboxCenterLat p q, bboxCenterLng p q⟩
          (halfNorthM p q) (halfEastM T p q) 0 (9/50)
          (palAt k).1 (palAt k).2.1 (stripStr ul.desc) (palAt k).2.2 16
          "bottom-right" 60 (infoHtml k (stripStr ul.desc) (stripStr lr.desc))], []) ∧
    1 ≤ halfNorthM p q ∧ 1 ≤ halfEastM T p q := by
  have hb := buildPairShape_of_ellipse T k ul lr p q hell
  rw [hrot] at hb
  refine ⟨?_, ?_, ?_⟩
  · rw [processPairRows]
    simp only [h1, h2]
    rw [hb]
  · exact le_max_left 1 _
  · exact le_max_left 1 _

/-- Witness for C4: the shape specification "楕円" with a degenerate pair
(both corners at the same point) produces an ellipse with both radii clamped
to exactly one metre. -/
theorem ellipse_radii_min_witness :
    isEllipseSpec (stripStr c4_ul.website) = true ∧
    rotOf (stripStr c4_ul.website) = 0 ∧
    (processPairRows T0 "2" c4_ul c4_lr =
      ([Shape.ellipse ⟨bboxCenterLat ⟨35, 139⟩ ⟨35, 139⟩, bboxCenterLng ⟨35, 139⟩ ⟨35, 139⟩⟩
          (halfNorthM ⟨35, 139⟩ ⟨35, 139⟩) (halfEastM T0 ⟨35, 139⟩ ⟨35, 139⟩) 0 (9/50)
          (palAt "2").1 (palAt "2").2.1 (stripStr c4_ul.desc) (palAt "2").2.2 16
          "bottom-right" 60 (infoHtml "2" (stripStr c4_ul.desc) (stripStr c4_lr.desc))], []) ∧
    1 ≤ halfNorthM ⟨35, 139⟩ ⟨35, 139⟩ ∧ 1 ≤ halfEastM T0 ⟨35, 139⟩ ⟨35, 139⟩) ∧
    halfNorthM ⟨35, 139⟩ ⟨35, 139⟩ = 1 ∧ halfEastM T0 ⟨35, 139⟩ ⟨35, 139⟩ = 1 := by
  refine ⟨rfl, rfl,
    ellipse_radii_min T0 "2" c4_ul c4_lr ⟨35, 139⟩ ⟨35, 139⟩
      (resolveRow_zero T0 c4_ul 35 139 rfl rfl rfl rfl)
      (resolveRow_zero T0 c4_lr 35 139 rfl rfl rfl rfl) rfl rfl, ?_, ?_⟩
  · rw [halfNorthM]
    norm_num [pairBounds]
  · rw [halfEastM]
    norm_num [pairBounds, T0]

/-- C7: for a row collection containing an upper-left row with key K but no
lower-right row with key K (or vice versa), the shape builder processes key K
to zero shapes and exactly one warning mentioning K, while every other key's
processing result is unaffected by the unpaired row; the builder is a total
function and never aborts the batch. -/
theorem incomplete_pair_warning (T : Trig) (rows : List Row) (bad : Row) (K : String) :
    (ulKeyOf bad.raw_name = some K → lrKeyOf bad.raw_name = none →
      (∀ r ∈ rows, lrKeyOf r.raw_name ≠ some K) →
      processKey T (rows ++ [bad]) K = ([], [missingMsg K]) ∧
      containsSub K.data (missingMsg K).data = true ∧
      K ∈ shapeKeys (rows ++ [bad]) ∧
      (∀ K2, K2 ≠ K → processKey T (rows ++ [bad]) K2 = processKey T rows K2)) ∧
    (lrKeyOf bad.raw_name = some K → ulKeyOf bad.raw_name = none →
      (∀ r ∈ rows, ulKeyOf r.raw_name ≠ some K) →
      processKey T (rows ++ [bad]) K = ([], [missingMsg K]) ∧
      containsSub K.data (missingMsg K).data = true ∧
      K ∈ shapeKeys (rows ++ [bad]) ∧
      (∀ K2, K2 ≠ K → processKey T (rows ++ [bad]) K2 = processKey T rows K2)) := by
  constructor
  · intro hul hlr hno
    have hu : ulLookup (rows ++ [bad]) K = some bad := ulLookup_concat_hit rows bad K hul
    have hl : lrLookup (rows ++ [bad]) K = none := by
      apply lrLookup_none
      intro r hr
      rcases List.mem_append.mp hr with h | h
      · exact hno r h
      · rcases List.mem_singleton.mp h with rfl
        rw [hlr]
        exact fun hc => Option.noConfusion hc
    refine ⟨?_, ?_, ?_, ?_⟩
    · rw [processKey, hu, hl]
    · have : missingMsg K = ("組 ".data ++ K.data ++ ": 左上／右下 のいずれかがありません。".data).asString := by
        rw [missingMsg]
        rfl
      rw [this]
      have hd : (("組 ".data ++ K.data ++ ": 左上／右下 のいずれかがありません。".data).asString).data =
          "組 ".data ++ K.data ++ ": 左上／右下 のいずれかがありません。".data := rfl
      rw [hd]
      exact containsSub_of_parts K.data "組 ".data ": 左上／右下 のいずれかがありません。".data
    · exact mem_shapeKeys_of_ul (rows ++ [bad]) bad K
        (List.mem_append.mpr (Or.inr (List.mem_singleton_self bad))) hul
    · intro K2 hK2
      have hu2 : ulLookup (rows ++ [bad]) K2 = ulLookup rows K2 := by
        apply ulLookup_concat_miss
        rw [hul]
        intro hc
        exact hK2 (Option.some.inj hc).symm
      have hl2 : lrLookup (rows ++ [bad]) K2 = lrLookup rows K2 := by
        apply lrLookup_concat_miss
        rw [hlr]
        exact fun hc => Option.noConfusion hc
      rw [processKey, processKey, hu2, hl2]
  · intro hlr hul hno
    have hl : lrLookup (rows ++ [bad]) K = some bad := lrLookup_concat_hit rows bad K hlr
    have hu : ulLookup (rows ++ [bad]) K = none := by
      apply ulLookup_none
      intro r hr
      rcases List.mem_append.mp hr with h | h
      · exact hno r h
      · rcases List.mem_singleton.mp h with rfl
        rw [hul]
        exact fun hc => Option.noConfusion hc
    refine ⟨?_, ?_, ?_, ?_⟩
    · rw [processKey, hu, hl]
    · have : missingMsg K = ("組 ".data ++ K.data ++ ": 左上／右下 のいずれかがありません。".data).asString := by
        rw [missingMsg]
        rfl
      rw [this]
      have hd : (("組 ".data ++ K.data ++ ": 左上／右下 のいずれかがありません。".data).asString).data =
          "組 ".data ++ K.data ++ ": 左上／右下 のいずれかがありません。".data := rfl
      rw [hd]
      exact containsSub_of_parts K.data "組 ".data ": 左上／右下 のいずれかがありません。".data
    · exact mem_shapeKeys_of_lr (rows ++ [bad]) bad K
        (List.mem_append.mpr (Or.inr (List.mem_singleton_self bad))) hlr
    · intro K2 hK2
      have hu2 : ulLookup (rows ++ [bad]) K2 = ulLookup rows K2 := by
        apply ulLookup_concat_miss
        rw [hul]
        exact fun hc => Option.noConfusion hc
      have hl2 : lrLookup (rows ++ [bad]) K2 = lrLookup rows K2 := by
        apply lrLookup_concat_miss
        rw [hlr]
        intro hc
        exact hK2 (Option.some.inj hc).symm
      rw [processKey, processKey, hu2, hl2]

/-- Witness for C7: a batch consisting of only an unpaired upper-left row
with key 7 produces zero shapes and exactly the one missing-member warning,
and an unrelated key is processed identically with or without that row. -/
theorem incomplete_pair_warning_witness :
    processKey T0 ([] ++ [c7_bad]) "7" = ([], [missingMsg "7"]) ∧
    containsSub "7".data (missingMsg "7").data = true ∧
    "7" ∈ shapeKeys ([] ++ [c7_bad]) ∧
    processKey T0 ([] ++ [c7_bad]) "2" = processKey T0 [] "2" := by
  have h := (incomplete_pair_warning T0 [] c7_bad "7").1 rfl rfl
    (fun r hr => absurd hr (List.not_mem_nil r))
  exact ⟨h.1, h.2.1, h.2.2.1, h.2.2.2 "2" (by decide)⟩

/-- C8 (amended): a place row whose post-offset coordinate falls outside the
valid bounds is dropped from `places` and counted in `skipped_missing`, and
processing of all other rows continues; however no warning string is
appended — the place warnings collection of the output is always empty. -/
theorem out_of_range_drop_amended (T : Trig) (rows : List Row) (g : Geo)
    (h : buildGeoFromRows T rows = Except.ok g) :
    g.places = (rows.drop 2).filterMap (rowPlace T) ∧
    g.place_warnings = [] ∧
    g.skipped_missing =
      ((rows.drop 2).filter
        (fun r => !shapeRowB r && (placeOfRow T r).isNone)).length := by
  obtain ⟨hp, hw, hs, _, _⟩ := buildGeo_ok_fields T rows g h
  exact ⟨by rw [hp, placeLoop_places], hw, by rw [hs, placeLoop_skipped]⟩

theorem dupNotes_singleton (p : Place) : dupNotes [p] = [] := by
  simp [dupNotes, dupKeys, dedupFirst, dedupFirstAux, List.filter]

theorem buildGeo_c8 : buildGeoFromRows T0 c8_rows = Except.ok c8_geo := by
  have hC : resolveRow T0 (simpleRow "中心" 35 139) = some ⟨35, 139⟩ :=
    resolveRow_zero T0 _ 35 139 rfl rfl rfl rfl
  have hP : resolveRow T0 (simpleRow "現在" 35 139) = some ⟨35, 139⟩ :=
    resolveRow_zero T0 _ 35 139 rfl rfl rfl rfl
  have hA : resolveRow T0 (simpleRow "店A" 10 10) = some ⟨10, 10⟩ :=
    resolveRow_zero T0 _ 10 10 rfl rfl rfl rfl
  have hB : resolveRow T0 (simpleRow "店B" 91 0) = some ⟨91, 0⟩ :=
    resolveRow_zero T0 _ 91 0 rfl rfl rfl rfl
  have hiA : inRangeB ⟨10, 10⟩ = true := by
    simp only [inRangeB, decide_eq_true_eq]
    norm_num
  have hiB : inRangeB ⟨91, 0⟩ = false := by
    simp only [inRangeB, decide_eq_false_iff_not]
    norm_num
  have hsA : shapeRowB (simpleRow "店A" 10 10) = false := rfl
  have hsB : shapeRowB (simpleRow "店B" 91 0) = false := rfl
  have hpl : placeLoop T0 (c8_rows.drop 2) =
      ([mkPlace (simpleRow "店A" 10 10) ⟨10, 10⟩], 1, 0) := by
    show placeLoop T0 [simpleRow "店A" 10 10, simpleRow "店B" 91 0] = _
    simp only [placeLoop, hsA, hsB, hA, hB, hiA, hiB]
    rfl
  have hbs : buildShapes T0 (c8_rows.drop 2) = ([], []) := rfl
  have hm : (c8_rows.get? 0).bind (fun r0 => resolveRow T0 r0) =
      some (⟨35, 139⟩ : Pt) := hC
  rw [buildGeoFromRows, if_neg (by decide), hm]
  have hpin : (c8_rows.get? 1).bind (fun r1 => resolveRow T0 r1) =
      some (⟨35, 139⟩ : Pt) := hP
  simp only [hpin, hpl, hbs, c8_geo, Except.ok.injEq, Geo.mk.injEq]
  simp [dupNotes_singleton]
  rfl

/-- Counterexample for C8: the batch `c8_rows` contains a place row whose
post-offset latitude is 91; the row is indeed excluded from `places`, but
both output warning collections are empty — no warning string is appended,
only the `skipped_missing` counter is incremented. -/
theorem out_of_range_no_warning_cex :
    (buildGeoFromRows T0 c8_rows).map
      (fun g => (g.places, g.place_warnings, g.shape_warnings, g.skipped_missing)) =
    Except.ok ([mkPlace (simpleRow "店A" 10 10) ⟨10, 10⟩], [], [], 1) := by
  rw [buildGeo_c8]
  rfl

/-- Witness for C8 (amended): the amended statement instantiated at the
concrete batch `c8_rows`. -/
theorem out_of_range_drop_amended_witness :
    buildGeoFromRows T0 c8_rows = Except.ok c8_geo ∧
    c8_geo.places = (c8_rows.drop 2).filterMap (rowPlace T0) ∧
    c8_geo.place_warnings = [] ∧
    c8_geo.skipped_missing =
      ((c8_rows.drop 2).filter
        (fun r => !shapeRowB r && (placeOfRow T0 r).isNone)).length :=
  ⟨buildGeo_c8, out_of_range_drop_amended T0 c8_rows c8_geo buildGeo_c8⟩

/-- Counterexample for C9: the core does have a fatal error surface — for the
empty row collection `build_geo_from_rows` raises the insufficient-rows
`RuntimeError` ("行数不足") instead of producing a result. -/
theorem build_insufficient_rows_cex :
    buildGeoFromRows T0 [] = Except.error "行数不足" := rfl

/-- C9 (amended): building the geo output succeeds exactly when the input
has at least two rows and the first row's raw coordinates are present (so
the map center resolves); in every other case it raises (insufficient rows,
or unresolved map center), and within the per-row/per-pair processing no
error is ever raised. -/
theorem build_totality_amended (T : Trig) (rows : List Row) :
    isOkB (buildGeoFromRows T rows) =
      (decide (2 ≤ rows.length) &&
        (rows.get? 0).elim false (fun r => (resolveRow T r).isSome)) := by
  by_cases h : rows.length < 2
  · rw [buildGeoFromRows, if_pos h]
    have h2 : ¬(2 ≤ rows.length) := by omega
    simp [isOkB, h2]
  · rw [buildGeoFromRows, if_neg h]
    have h2 : 2 ≤ rows.length := by omega
    cases rows with
    | nil => exact absurd h2 (by norm_num)
    | cons r rs =>
      rcases hres : resolveRow T r with _ | p
      · simp [isOkB, h2, hres]
      · simp only [List.length_cons] at h2
        simp [isOkB, h2, hres]

/-- C10: rows whose raw name matches the upper-left or lower-right pattern
never appear in the `places` output even when their coordinates are valid —
`places` is computed only from the non-matching rows, and the shape builder's
result depends only on the matching rows. -/
theorem shape_rows_not_places (T : Trig) (rows : List Row) (g : Geo)
    (h : buildGeoFromRows T rows = Except.ok g) :
    g.places =
      ((rows.drop 2).filter (fun r => !shapeRowB r)).filterMap (placeOfRow T) ∧
    buildShapes T (rows.drop 2) =
      buildShapes T ((rows.drop 2).filter (fun r => shapeRowB r)) := by
  obtain ⟨hp, _, _, _, _⟩ := buildGeo_ok_fields T rows g h
  constructor
  · rw [hp, placeLoop_places, filterMap_rowPlace]
  · exact buildShapes_filter_shape T (rows.drop 2)

theorem buildGeo_c10 : buildGeoFromRows T0 c10_rows = Except.ok c10_geo := by
  have hC : resolveRow T0 (simpleRow "中心" 35 139) = some ⟨35, 139⟩ :=
    resolveRow_zero T0 _ 35 139 rfl rfl rfl rfl
  have hP : resolveRow T0 (simpleRow "現在" 35 139) = some ⟨35, 139⟩ :=
    resolveRow_zero T0 _ 35 139 rfl rfl rfl rfl
  have hm : (c10_rows.get? 0).bind (fun r0 => resolveRow T0 r0) =
      some (⟨35, 139⟩ : Pt) := hC
  have hpin : (c10_rows.get? 1).bind (fun r1 => resolveRow T0 r1) =
      some (⟨35, 139⟩ : Pt) := hP
  have hpl : placeLoop T0 (c10_rows.drop 2) = ([], 0, 1) := rfl
  have hbs : buildShapes T0 (c10_rows.drop 2) = ([], [missingMsg "1"]) := rfl
  rw [buildGeoFromRows, if_neg (by decide), hm]
  simp only [hpin, hpl, hbs, c10_geo, Except.ok.injEq, Geo.mk.injEq]
  simp
  exact ⟨rfl, rfl⟩

/-- Witness for C10: a batch whose only non-reference row is an upper-left
pattern row with valid coordinates yields an empty `places` list — the row
is consumed by the shape builder (which emits its unpaired-key warning). -/
theorem shape_rows_not_places_witness :
    buildGeoFromRows T0 c10_rows = Except.ok c10_geo ∧
    c10_geo.places =
      ((c10_rows.drop 2).filter (fun r => !shapeRowB r)).filterMap (placeOfRow T0) ∧
    c10_geo.places = [] :=
  ⟨buildGeo_c10, (shape_rows_not_places T0 c10_rows c10_geo buildGeo_c10).1, rfl⟩

/-- Witness for C1: the default-rectangle theorem instantiated at the
concrete trig model. -/
theorem rect_default_pair_witness :
    buildShapes T0 [c1_ul, c1_lr] =
      ([Shape.rect 35 34.999 139.001 139 (9/50) "#F59E0B" "#F59E0B" ""
          "#9A3412" 16 "bottom-right" 30 (infoHtml "1" "" "")], []) :=
  rect_default_pair T0

/-- Witness for C2: the swap-invariance theorem instantiated at the concrete
pair of C1 (with the roles of the corner rows' coordinates exchanged). -/
theorem bbox_normalization_swap_witness :
    processPairRows T0 "1" c1_ul c1_lr =
      processPairRows T0 "1" (withCoordsOf c1_lr c1_ul) (withCoordsOf c1_ul c1_lr) :=
  (bbox_normalization_swap T0 "1" c1_ul c1_lr).2.2

/-- Witness for C9 (amended): the success criterion evaluated at the empty
batch and at the concrete successful batch `c8_rows`. -/
theorem build_totality_amended_witness :
    isOkB (buildGeoFromRows T0 []) =
      (decide (2 ≤ ([] : List Row).length) &&
        (([] : List Row).get? 0).elim false (fun r => (resolveRow T0 r).isSome)) ∧
    isOkB (buildGeoFromRows T0 c8_rows) =
      (decide (2 ≤ c8_rows.length) &&
        (c8_rows.get? 0).elim false (fun r => (resolveRow T0 r).isSome)) :=
  ⟨build_totality_amended T0 [], build_totality_amended T0 c8_rows⟩

theorem mem_group_exists (places : List JPlace) (p : JPlace) (hp : p ∈ places) :
    ∃ g, g ∈ groupPlacesByLatLng places ∧ p ∈ g := by
  refine ⟨places.filter (fun x => decide (jsKey x = jsKey p)), ?_, ?_⟩
  · exact List.mem_map.mpr
      ⟨jsKey p, (mem_dedupFirst _ _).mpr (List.mem_map_of_mem jsKey hp), rfl⟩
  · exact List.mem_filter.mpr ⟨hp, by simp⟩

theorem group_members (places g : List JPlace)
    (hg : g ∈ groupPlacesByLatLng places) (p : JPlace) (hpg : p ∈ g) :
    p ∈ places ∧ ∀ q ∈ places, (jsKey q = jsKey p ↔ q ∈ g) := by
  rcases List.mem_map.mp hg with ⟨k, _, rfl⟩
  have hp := List.mem_filter.mp hpg
  have hkey : jsKey p = k := of_decide_eq_true hp.2
  refine ⟨hp.1, fun q hq => ⟨fun he => ?_, fun hqg => ?_⟩⟩
  · exact List.mem_filter.mpr ⟨hq, decide_eq_true (he.trans hkey)⟩
  · exact (of_decide_eq_true (List.mem_filter.mp hqg).2).trans hkey.symm

theorem groupColors_mem (g : List JPlace) (p : JPlace) (hp : p ∈ g)
    (hne : stripStr p.color ≠ "") : stripStr p.color ∈ groupColors g := by
  rw [groupColors, mem_dedupFirst]
  exact List.mem_filter.mpr
    ⟨List.mem_map_of_mem (fun p => stripStr p.color) hp, decide_eq_true hne⟩

theorem groupColors_single (g : List JPlace) (c : String) (hc : c ≠ "")
    (hall : ∀ p ∈ g, stripStr p.color = "" ∨ stripStr p.color = c)
    (hex : ∃ p ∈ g, stripStr p.color = c) :
    groupColors g = [c] := by
  rw [groupColors]
  have hmem : c ∈ (g.map (fun p => stripStr p.color)).filter
      (fun c => decide (c ≠ "")) := by
    rcases hex with ⟨p, hp, hpc⟩
    exact List.mem_filter.mpr
      ⟨hpc ▸ List.mem_map_of_mem (fun p => stripStr p.color) hp, decide_eq_true hc⟩
  apply dedupFirst_all_eq c _ (List.ne_nil_of_mem hmem)
  intro x hx
  have hx' := List.mem_filter.mp hx
  rcases List.mem_map.mp hx'.1 with ⟨p, hp, rfl⟩
  rcases hall p hp with h0 | h0
  · exact absurd h0 (of_decide_eq_true hx'.2)
  · exact h0

theorem markerColor_of_single (g : List JPlace) (c : String)
    (h : groupColors g = [c]) : markerColor g = c := by
  simp [markerColor, h]

theorem markerColor_mixed (g : List JPlace)
    (hmix : ∃ p ∈ g, ∃ q ∈ g, stripStr p.color ≠ "" ∧ stripStr q.color ≠ "" ∧
      stripStr p.color ≠ stripStr q.color) :
    markerColor g = "#F59E0B" := by
  rcases hmix with ⟨p, hpg, q, hqg, hpne, hqne, hdiff⟩
  have hpc := groupColors_mem g p hpg hpne
  have hqc := groupColors_mem g q hqg hqne
  have hglen : 1 < g.length :=
    one_lt_length_of_two_mem hpg hqg (fun e => hdiff (by rw [e]))
  rcases hcol : groupColors g with _ | ⟨a, _ | ⟨b, tl⟩⟩
  · rw [hcol] at hpc
    exact absurd hpc (List.not_mem_nil _)
  · rw [hcol] at hpc hqc
    have h1 := List.mem_singleton.mp hpc
    have h2 := List.mem_singleton.mp hqc
    exact absurd (h1.trans h2.symm) hdiff
  · simp [markerColor, hcol, hglen]

theorem markerColor_no_colors (g : List JPlace) (hlen : 1 < g.length)
    (hall : ∀ p ∈ g, stripStr p.color = "") : markerColor g = "#F59E0B" := by
  have hgc : groupColors g = [] := by
    rw [groupColors]
    have hf : (g.map (fun p => stripStr p.color)).filter
        (fun c => decide (c ≠ "")) = [] := by
      rw [List.filter_eq_nil_iff]
      intro a ha
      rcases List.mem_map.mp ha with ⟨p, hp, rfl⟩
      simp [hall p hp]
    rw [hf]
    rfl
  simp [markerColor, hgc, hlen]

/-- C5: the marker grouper clusters places by their latitude/longitude
`toFixed(6)` keys (two places land in the same group exactly when their keys
agree, and every place lands in a group); within a group whose entities
exhibit exactly one non-empty colour the marker uses that colour, while a
group with two distinct non-empty colours, or more than one entity and no
colour at all, uses the designated mixed colour `#F59E0B`, which is distinct
from the single-entity default `#EF4444`. -/
theorem marker_grouping_colors (places : List JPlace) :
    (∀ p ∈ places, ∃ g, g ∈ groupPlacesByLatLng places ∧ p ∈ g) ∧
    (∀ g ∈ groupPlacesByLatLng places, ∀ p ∈ g,
      p ∈ places ∧ ∀ q ∈ places, (jsKey q = jsKey p ↔ q ∈ g)) ∧
    (∀ g ∈ groupPlacesByLatLng places, ∀ c, c ≠ "" →
      (∀ p ∈ g, stripStr p.color = "" ∨ stripStr p.color = c) →
      (∃ p ∈ g, stripStr p.color = c) → markerColor g = c) ∧
    (∀ g ∈ groupPlacesByLatLng places,
      (∃ p ∈ g, ∃ q ∈ g, stripStr p.color ≠ "" ∧ stripStr q.color ≠ "" ∧
        stripStr p.color ≠ stripStr q.color) → markerColor g = "#F59E0B") ∧
    (∀ g ∈ groupPlacesByLatLng places, 1 < g.length →
      (∀ p ∈ g, stripStr p.color = "") → markerColor g = "#F59E0B") ∧
    ("#F59E0B" : String) ≠ "#EF4444" :=
  ⟨fun p hp => mem_group_exists places p hp,
   fun g hg p hpg => group_members places g hg p hpg,
   fun g _ c hc hall hex => markerColor_of_single g c (groupColors_single g c hc hall hex),
   fun g _ hmix => markerColor_mixed g hmix,
   fun g _ hlen hall => markerColor_no_colors g hlen hall,
   by decide⟩

theorem groups_jpA_jpC : groupPlacesByLatLng [jpA, jpC] = [[jpA, jpC]] := by
  have hk : jsKey jpC = jsKey jpA := rfl
  simp only [groupPlacesByLatLng, List.map_cons, List.map_nil]
  rw [hk]
  rw [dedupFirst_all_eq (jsKey jpA) [jsKey jpA, jsKey jpA] (by simp)
    (by intro x hx; rcases List.mem_cons.mp hx with rfl | hx2
        · rfl
        · rcases List.mem_cons.mp hx2 with rfl | h3
          · rfl
          · cases h3)]
  have h1 : decide (jsKey jpA = jsKey jpA) = true := decide_eq_true rfl
  have h2 : decide (jsKey jpC = jsKey jpA) = true := decide_eq_true hk
  simp [List.filter_cons, h1, h2, hk]

theorem groups_jpA_jpB : groupPlacesByLatLng [jpA, jpB] = [[jpA, jpB]] := by
  have hk : jsKey jpB = jsKey jpA := rfl
  simp only [groupPlacesByLatLng, List.map_cons, List.map_nil]
  rw [hk]
  rw [dedupFirst_all_eq (jsKey jpA) [jsKey jpA, jsKey jpA] (by simp)
    (by intro x hx; rcases List.mem_cons.mp hx with rfl | hx2
        · rfl
        · rcases List.mem_cons.mp hx2 with rfl | h3
          · rfl
          · cases h3)]
  have h1 : decide (jsKey jpA = jsKey jpA) = true := decide_eq_true rfl
  have h2 : decide (jsKey jpB = jsKey jpA) = true := decide_eq_true hk
  simp [List.filter_cons, h1, h2, hk]

/-- Witness for C5: two co-located places with different colours are merged
into one marker with the mixed colour, and two co-located places with the
same colour keep that colour. -/
theorem marker_grouping_colors_witness :
    markerColor [jpA, jpC] = "#F59E0B" ∧ markerColor [jpA, jpB] = "#ff0000" := by
  constructor
  · refine (marker_grouping_colors [jpA, jpC]).2.2.2.1 [jpA, jpC] ?_ ?_
    · rw [groups_jpA_jpC]
      exact List.mem_singleton_self _
    · exact ⟨jpA, List.mem_cons_self _ _,
        jpC, by simp, by decide, by decide, by decide⟩
  · refine (marker_grouping_colors [jpA, jpB]).2.2.1 [jpA, jpB] ?_ "#ff0000"
      (by decide) ?_ ⟨jpA, List.mem_cons_self _ _, rfl⟩
    · rw [groups_jpA_jpB]
      exact List.mem_singleton_self _
    · intro p hp
      rcases List.mem_cons.mp hp with rfl | hp2
      · exact Or.inr rfl
      · rcases List.mem_cons.mp hp2 with rfl | h3
        · exact Or.inr rfl
        · cases h3
